import Mathlib

/-!
# TinyTask — a shallow embedding of `src/TinyTask.cpp` / `src/TinyTask.h`

TinyTask is a single-callback cooperative scheduler for Arduino-style
environments.  Its state is one object with a callback binding, an optional
pointer parameter, a time-unit flag (`microseconds`), a signed `interval`
(C++ `long`, 32-bit), an unsigned `timeout` deadline (C++ `unsigned long`,
32-bit) and the flags `periodic` and `active`.

The embedding below models 32-bit `unsigned long` values as `Nat` reduced
modulo `2^32` and 32-bit `long` values as `Int` (reinterpretation of an
unsigned value as signed is the explicit function `toSigned`).  The ambient
clocks `millis()` / `micros()` are passed to every operation as explicit
arguments `nowMs` / `nowUs`; the `microseconds` flag of the state selects
which one is consulted, exactly as in the source.  The callback itself is
external host code, so `loop()` is modelled as returning the post-mutation
state paired with a `Bool` recording whether `callTask()` was invoked; in
the source every state mutation happens before `callTask()` runs, so the
returned state is also the state the callback observes.  The unbounded
`while` loop inside `loop()` is modelled with explicit fuel (`Option`
result, `none` = the loop did not finish within the given fuel).
-/

/-- Reinterpretation of a 32-bit unsigned value as a signed `long`
(two's complement, as on the AVR/ARM targets of the library):
values below `2^31` map to themselves, values from `2^31` up map to
negatives.  Used wherever the source converts `unsigned long` to `long`
or lets an `unsigned long` expression decide a signed comparison. -/
def toSigned (n : Nat) : Int :=
  if n < 2 ^ 31 then (n : Int) else (n : Int) - 2 ^ 32

/-- Reduction of an integer into the range of a 32-bit `unsigned long`. -/
def wrap32 (x : Int) : Nat :=
  (x % (2 ^ 32 : Int)).toNat

/-- `unsigned long + long` in C++: the signed operand is converted to
unsigned and the sum wraps modulo `2^32`. -/
def addWrap (t : Nat) (i : Int) : Nat :=
  wrap32 ((t : Int) + i)

/-- `unsigned long - unsigned long` in C++: wrapping subtraction
modulo `2^32`. -/
def subWrap (a b : Nat) : Nat :=
  wrap32 ((a : Int) - (b : Int))

/-- The fields of a `TinyTask` object (`src/TinyTask.h`).  Function
pointers are modelled as opaque numeric handles (`Option Nat`, `none` =
`NULL`), and `void*` as a numeric handle. -/
structure TT where
  periodic : Bool
  active : Bool
  microseconds : Bool
  pointerParam : Nat
  interval : Int
  timeout : Nat
  taskToCall : Option Nat
  taskToCallTakesPtr : Option Nat
deriving DecidableEq

/-- The constructor `TinyTask(TaskToCall)`: binds the plain callback and
nulls the pointer-taking one; `active` and `microseconds` have in-class
initialisers (`false`), while `periodic`, `pointerParam`, `interval` and
`timeout` are left uninitialised in C++ — they are passed in here as the
arbitrary values `periodic0`, `p0`, `i0`, `t0`. -/
def mkTinyTask (f : Nat) (periodic0 : Bool) (p0 : Nat) (i0 : Int) (t0 : Nat) : TT :=
  { periodic := periodic0, active := false, microseconds := false,
    pointerParam := p0, interval := i0, timeout := t0,
    taskToCall := some f, taskToCallTakesPtr := none }

/-- `TinyTask::callIn(long)` — verbatim from the source: the guard tests
the *member* `TinyTask::interval`, not the `interval` parameter (the
source line is `if (TinyTask::interval < 0) return false;`); on success
`timeout` is set from the selected clock plus the parameter, `periodic`
is cleared and `active` set. -/
def callIn (s : TT) (interval : Int) (nowMs nowUs : Nat) : TT × Bool :=
  if s.interval < 0 then (s, false)
  else
    ({ s with
        timeout := if s.microseconds then addWrap nowUs interval
                   else addWrap nowMs interval,
        periodic := false, active := true }, true)

/-- `TinyTask::callIn(long, void*)` — stores the pointer parameter, then
calls `callIn(interval)` *as a statement* and falls off the end of the
function without a `return`: the `boolean` it returns is indeterminate.
The indeterminate return value is the explicit parameter `garbage`. -/
def callInPtr (s : TT) (interval : Int) (p : Nat) (nowMs nowUs : Nat)
    (garbage : Bool) : TT × Bool :=
  ((callIn { s with pointerParam := p } interval nowMs nowUs).1, garbage)

/-- `TinyTask::callAt(unsigned long)` — verbatim from the source: the
guard is `futureTime - now < 0` where `futureTime - now` has type
`unsigned long`, so the comparison is between a `Nat` and `0`.  The
parameter is an `unsigned long`, hence reduced modulo `2^32` on entry. -/
def callAt (s : TT) (futureTime : Nat) (nowMs nowUs : Nat) : TT × Bool :=
  let f := futureTime % 2 ^ 32
  if s.microseconds then
    if subWrap f nowUs < 0 then (s, false)
    else ({ s with timeout := f, periodic := false, active := true }, true)
  else
    if subWrap f nowMs < 0 then (s, false)
    else ({ s with timeout := f, periodic := false, active := true }, true)

/-- `TinyTask::callAt(unsigned long, void*)` — stores the pointer, calls
`callAt(futureTime)` as a statement, returns an indeterminate `boolean`
(parameter `garbage`). -/
def callAtPtr (s : TT) (futureTime : Nat) (p : Nat) (nowMs nowUs : Nat)
    (garbage : Bool) : TT × Bool :=
  ((callAt { s with pointerParam := p } futureTime nowMs nowUs).1, garbage)

/-- `TinyTask::callEvery(long)` — rejects a negative `interval`
parameter, otherwise stores it in the member, sets `timeout` from the
selected clock plus the interval, and marks the task periodic and
active. -/
def callEvery (s : TT) (interval : Int) (nowMs nowUs : Nat) : TT × Bool :=
  if interval < 0 then (s, false)
  else
    ({ s with
        interval := interval,
        timeout := if s.microseconds then addWrap nowUs interval
                   else addWrap nowMs interval,
        periodic := true, active := true }, true)

/-- `TinyTask::callEvery(long, void*)` — stores the pointer, calls
`callEvery(interval)` as a statement, returns an indeterminate `boolean`
(parameter `garbage`). -/
def callEveryPtr (s : TT) (interval : Int) (p : Nat) (nowMs nowUs : Nat)
    (garbage : Bool) : TT × Bool :=
  ((callEvery { s with pointerParam := p } interval nowMs nowUs).1, garbage)

/-- `TinyTask::remaining()` — verbatim from the source: `-1` if not
active; otherwise `timeLeft = timeout - now` is computed in *unsigned*
arithmetic, the guard `timeLeft < 0` compares that unsigned value with
`0`, and `return timeLeft;` converts the unsigned value to `long`
(two's-complement reinterpretation, `toSigned`). -/
def remaining (s : TT) (nowMs nowUs : Nat) : Int :=
  if !s.active then -1
  else
    let timeLeft : Nat :=
      if s.microseconds then subWrap s.timeout nowUs
      else subWrap s.timeout nowMs
    if timeLeft < 0 then 0 else toSigned timeLeft

/-- `TinyTask::cancel()` — unconditionally clears `active`. -/
def cancel (s : TT) : TT :=
  { s with active := false }

/-- `TinyTask::useMillis()` — clears the `microseconds` flag. -/
def useMillis (s : TT) : TT :=
  { s with microseconds := false }

/-- `TinyTask::useMicros()` — sets the `microseconds` flag. -/
def useMicros (s : TT) : TT :=
  { s with microseconds := true }

/-- The `while (remaining() <= 0) timeout += interval;` loop inside
`TinyTask::loop()`, with explicit fuel.  Each unfolding re-evaluates
`remaining()` on the updated object, exactly as the source does.
Returns the final `timeout`, or `none` if the loop has not finished
within `fuel` iterations. -/
def catchUp (fuel : Nat) (s : TT) (nowMs nowUs : Nat) : Option Nat :=
  match fuel with
  | 0 => none
  | Nat.succ f =>
      if remaining s nowMs nowUs ≤ 0 then
        catchUp f { s with timeout := addWrap s.timeout s.interval } nowMs nowUs
      else some s.timeout

/-- `TinyTask::loop()` — no-op when inactive; when active and
`remaining() <= 0`, a periodic task advances `timeout` through
`catchUp` and a one-shot task clears `active`; in both firing branches
`callTask()` is then invoked (recorded by the returned `Bool`; in the
source all state mutation precedes the `callTask()` call, so the
returned state is the state the callback observes).  `none` means the
internal `while` loop did not terminate within `fuel` iterations. -/
def loopFuel (fuel : Nat) (s : TT) (nowMs nowUs : Nat) : Option (TT × Bool) :=
  if s.active then
    if remaining s nowMs nowUs ≤ 0 then
      if s.periodic then
        match catchUp fuel s nowMs nowUs with
        | none => none
        | some t => some ({ s with timeout := t }, true)
      else some ({ s with active := false }, true)
    else some (s, false)
  else some (s, false)

/-! ## Basic arithmetic lemmas about the wrapping operations -/

theorem wrap32_lt (x : Int) : wrap32 x < 2 ^ 32 := by
  unfold wrap32
  have h1 : x % (2 ^ 32 : Int) < 2 ^ 32 :=
    Int.emod_lt_of_pos x (by norm_num)
  have h0 : 0 ≤ x % (2 ^ 32 : Int) :=
    Int.emod_nonneg x (by norm_num)
  omega

theorem wrap32_coe (x : Int) : ((wrap32 x : Nat) : Int) = x % (2 ^ 32 : Int) := by
  unfold wrap32
  exact Int.toNat_of_nonneg (Int.emod_nonneg x (by norm_num))

theorem wrap32_eq_of_emod_eq {x y : Int}
    (h : x % (2 ^ 32 : Int) = y % (2 ^ 32 : Int)) : wrap32 x = wrap32 y := by
  unfold wrap32; rw [h]

theorem subWrap_lt (a b : Nat) : subWrap a b < 2 ^ 32 := wrap32_lt _

theorem addWrap_lt (t : Nat) (i : Int) : addWrap t i < 2 ^ 32 := wrap32_lt _

/-- `subWrap` only depends on its first argument modulo `2^32`. -/
theorem subWrap_wrap32_left (x : Int) (b : Nat) :
    subWrap (wrap32 x) b = wrap32 (x - b) := by
  unfold subWrap
  refine wrap32_eq_of_emod_eq ?_
  rw [wrap32_coe]
  conv_lhs => rw [Int.sub_emod]
  rw [Int.emod_emod_of_dvd _ (dvd_refl _)]
  conv_lhs => rw [← Int.sub_emod]

/-- The unsigned difference after an `addWrap`. -/
theorem subWrap_addWrap (t : Nat) (i : Int) (b : Nat) :
    subWrap (addWrap t i) b = wrap32 ((t : Int) + i - b) :=
  subWrap_wrap32_left _ _

/-- Composing two `addWrap`s. -/
theorem addWrap_addWrap (t : Nat) (a b : Int) :
    addWrap (addWrap t a) b = addWrap t (a + b) := by
  unfold addWrap
  refine wrap32_eq_of_emod_eq ?_
  rw [wrap32_coe]
  conv_lhs => rw [Int.add_emod]
  rw [Int.emod_emod_of_dvd _ (dvd_refl _)]
  conv_lhs => rw [← Int.add_emod]
  rw [add_assoc]

theorem addWrap_zero {t : Nat} (h : t < 2 ^ 32) : addWrap t 0 = t := by
  unfold addWrap wrap32
  rw [add_zero, Int.emod_eq_of_lt (by positivity) (by exact_mod_cast h)]
  exact Int.toNat_natCast t

/-- Sign of the reinterpreted unsigned difference, for in-range values. -/
theorem toSigned_nonpos_iff {n : Nat} (h : n < 2 ^ 32) :
    toSigned n ≤ 0 ↔ n = 0 ∨ 2 ^ 31 ≤ n := by
  unfold toSigned
  split
  · constructor
    · intro hle
      left
      exact_mod_cast le_antisymm (by exact_mod_cast hle) (Int.ofNat_nonneg n)
    · intro hc
      rcases hc with hc | hc
      · simp [hc]
      · omega
  · constructor
    · intro _; right; omega
    · intro _
      have : (n : Int) < 2 ^ 32 := by exact_mod_cast h
      omega

theorem toSigned_pos_iff {n : Nat} (h : n < 2 ^ 32) :
    0 < toSigned n ↔ 1 ≤ n ∧ n < 2 ^ 31 := by
  unfold toSigned
  split
  · constructor
    · intro hp
      constructor
      · by_contra hn
        have : n = 0 := by omega
        simp [this] at hp
      · omega
    · intro ⟨h1, _⟩
      exact_mod_cast Nat.lt_of_lt_of_le Nat.zero_lt_one h1
  · constructor
    · intro hp
      have : (n : Int) < 2 ^ 32 := by exact_mod_cast h
      omega
    · intro ⟨_, h2⟩
      omega

/-- `remaining` on an active task is the signed reinterpretation of the
unsigned difference `timeout - now` (the `timeLeft < 0` branch of the
source compares an unsigned value with zero and is dead code). -/
theorem remaining_active (s : TT) (nowMs nowUs : Nat) (h : s.active = true) :
    remaining s nowMs nowUs =
      toSigned (subWrap s.timeout (if s.microseconds then nowUs else nowMs)) := by
  unfold remaining
  rw [h]
  simp only [Bool.not_true, Bool.false_eq_true, if_false]
  split <;> simp

/-! ## Claims -/

/-- C1.  The spec says `scheduleAt`/`callAt` rejects (returns `false`,
no state change) whenever `absoluteDeadline - now` reinterpreted as
signed is negative.  The source's guard `futureTime - micros() < 0`
compares an *unsigned* difference against zero, which is never true, so
`callAt` never rejects: at tick 1000 (milliseconds mode), a deadline of
500 lies 500 ticks in the past — the signed difference is negative —
yet the call returns `true` and activates the task with the past
deadline.  The source's own comment (`// if too far into the
future/in the past, reject the request`) and header comment (`The call
will fail if a longer timeout is submitted`) state the claimed
behaviour, so this is a bug in the code. -/
theorem c1_callAt_never_rejects :
    toSigned (subWrap 500 1000) < 0 ∧
      callAt (mkTinyTask 7 false 0 0 0) 500 1000 1000 =
        ({ mkTinyTask 7 false 0 0 0 with
            timeout := 500, periodic := false, active := true }, true) := by
  constructor
  · decide
  · rfl

/-- C2.  The spec says `scheduleIn`/`callIn` rejects every negative
delay with no state change.  The source's guard tests the *member*
`TinyTask::interval` instead of the `interval` parameter, so a negative
delay passes whenever the member is non-negative: after a successful
`callEvery(10)` (which stores `interval = 10`), `callIn(-5)` at tick
2000 returns `true` and schedules the task at tick 1995 — in the past.
The source's own comments (`// eliminates race condition: a very large
negative number …` and `Negative … delay/interval values cause callIn
and callEvery to fail`) state the claimed behaviour, so this is a bug
in the code. -/
theorem c2_callIn_accepts_negative_delay :
    (callEvery (mkTinyTask 7 false 0 0 0) 10 1000 1000).2 = true ∧
      callIn (callEvery (mkTinyTask 7 false 0 0 0) 10 1000 1000).1 (-5) 2000 2000 =
        ({ (callEvery (mkTinyTask 7 false 0 0 0) 10 1000 1000).1 with
            timeout := 1995, periodic := false, active := true }, true) := by
  constructor
  · rfl
  · rfl

/-- C3.  The spec says `timeUntilDue`/`remaining` returns exactly `0`
(never a negative number) on an active task whose unsigned difference
`deadline - now` indicates expiration.  The source's clamp
`if (timeLeft < 0) return 0;` compares the *unsigned* `timeLeft`
against zero and is dead code; the function instead returns the
unsigned difference reinterpreted as signed, which is negative for an
overdue task: an active task with deadline 1000 polled at tick 1001
yields `-1` (colliding with the "not scheduled" sentinel), not `0`.
The dead clamp in the source states the claimed behaviour, so this is
a bug in the code.  (The `-1`-when-inactive part of the claim does
hold and is proved as part of C7.) -/
theorem c3_remaining_negative_when_overdue :
    remaining
        { mkTinyTask 7 false 0 0 0 with timeout := 1000, active := true }
        1001 1001 = -1 := by
  decide

/-- C6.  `scheduleEvery`/`callEvery` with a negative interval returns
`false` and leaves the state (including `is_active`, `deadline` and the
stored `interval`) unchanged; with a non-negative interval it stores
the interval, sets `deadline = now + interval` on the selected clock
(wrapping modulo `2^32`), sets `is_periodic` and `is_active`, and
returns `true`. -/
theorem c6_callEvery_spec (s : TT) (i : Int) (nowMs nowUs : Nat) :
    callEvery s i nowMs nowUs =
      if i < 0 then (s, false)
      else
        ({ s with
            interval := i,
            timeout := if s.microseconds then addWrap nowUs i
                       else addWrap nowMs i,
            periodic := true, active := true }, true) := by
  rfl

/-- C7.  `cancel()` clears `is_active` and changes nothing else; it is
idempotent; any later `loop()` call, at any tick value of either clock
and with any fuel, invokes no callback and changes no state until a
new schedule call; `remaining` on the cancelled task is `-1`; and the
round trip `callAt(now + 100)` then `cancel()` then `remaining()`
yields `-1`. -/
theorem c7_cancel_spec (s : TT) (fuel nowMs nowUs nowMs2 nowUs2 : Nat) :
    cancel s = { s with active := false } ∧
    cancel (cancel s) = cancel s ∧
    remaining (cancel s) nowMs2 nowUs2 = -1 ∧
    loopFuel fuel (cancel s) nowMs2 nowUs2 = some (cancel s, false) ∧
    remaining (cancel ((callAt s (addWrap nowMs 100) nowMs nowUs).1)) nowMs nowUs
      = -1 := by
  refine ⟨rfl, rfl, rfl, ?_, ?_⟩
  · unfold loopFuel cancel
    simp
  · unfold remaining cancel
    simp

/-- C9.  `useMicros`/`useMilliseconds` change only the time-unit flag:
every other field — `timeout` (the already-computed absolute deadline,
not rescaled), `interval`, `periodic`, `active`, `pointerParam` and
both callback bindings — is untouched. -/
theorem c9_unit_switch_frame (s : TT) :
    useMicros s = { s with microseconds := true } ∧
    useMillis s = { s with microseconds := false } :=
  ⟨rfl, rfl⟩

/-- C8.  The pointer-carrying overloads of `callIn`, `callAt` and
`callEvery` call the one-argument overload as a statement and return
an indeterminate `boolean` (modelled by the extra argument `g`): the
value returned is exactly `g`, for every `g`, so in particular for each
overload there is a return value differing from the delegate's result
— the boolean result is not defined to equal (and does not propagate)
the delegate's result, although the state mutation of the delegate
does take place. -/
theorem c8_ptr_overloads_drop_result (s : TT) (i : Int) (t p nowMs nowUs : Nat)
    (g : Bool) :
    (callInPtr s i p nowMs nowUs g).2 = g ∧
    (callAtPtr s t p nowMs nowUs g).2 = g ∧
    (callEveryPtr s i p nowMs nowUs g).2 = g ∧
    (callInPtr s i p nowMs nowUs g).1 =
      (callIn { s with pointerParam := p } i nowMs nowUs).1 ∧
    (callAtPtr s t p nowMs nowUs g).1 =
      (callAt { s with pointerParam := p } t nowMs nowUs).1 ∧
    (callEveryPtr s i p nowMs nowUs g).1 =
      (callEvery { s with pointerParam := p } i nowMs nowUs).1 ∧
    (∃ b : Bool,
      (callInPtr s i p nowMs nowUs b).2 ≠
        (callIn { s with pointerParam := p } i nowMs nowUs).2) ∧
    (∃ b : Bool,
      (callAtPtr s t p nowMs nowUs b).2 ≠
        (callAt { s with pointerParam := p } t nowMs nowUs).2) ∧
    (∃ b : Bool,
      (callEveryPtr s i p nowMs nowUs b).2 ≠
        (callEvery { s with pointerParam := p } i nowMs nowUs).2) := by
  refine ⟨rfl, rfl, rfl, rfl, rfl, rfl, ?_, ?_, ?_⟩
  · exact ⟨!(callIn { s with pointerParam := p } i nowMs nowUs).2, by
      simp [callInPtr]⟩
  · exact ⟨!(callAt { s with pointerParam := p } t nowMs nowUs).2, by
      simp [callAtPtr]⟩
  · exact ⟨!(callEvery { s with pointerParam := p } i nowMs nowUs).2, by
      simp [callEveryPtr]⟩

/-! ## The catch-up loop of `TinyTask::loop()` -/

/-- One unfolding of the fuelled `while` loop. -/
theorem catchUp_succ (f : Nat) (s : TT) (nowMs nowUs : Nat) :
    catchUp (f + 1) s nowMs nowUs =
      if remaining s nowMs nowUs ≤ 0 then
        catchUp f { s with timeout := addWrap s.timeout s.interval } nowMs nowUs
      else some s.timeout := rfl

theorem tt_eta (s : TT) : { s with timeout := s.timeout } = s := rfl

theorem wrap32_natCast (a : Nat) : wrap32 (a : Int) = a % 2 ^ 32 := by
  unfold wrap32
  have e1 : (2 : Int) ^ 32 = 4294967296 := by norm_num
  have e2 : (2 : Nat) ^ 32 = 4294967296 := by norm_num
  rw [e1, e2]
  omega

/-- `subWrap` ignores a reduction modulo `2^32` of its first argument. -/
theorem subWrap_mod_left (a b : Nat) :
    subWrap (a % 2 ^ 32) b = subWrap a b := by
  have h : a % 2 ^ 32 = wrap32 (a : Int) := (wrap32_natCast a).symm
  rw [h, subWrap_wrap32_left]
  rfl

/-- Stepping the deadline once and then `n` more times is the same as
stepping it `n + 1` times. -/
theorem addWrap_step (t : Nat) (I : Int) (n : Nat) :
    addWrap (addWrap t I) ((n : Int) * I) = addWrap t (((n + 1 : Nat) : Int) * I) := by
  rw [addWrap_addWrap]
  congr 1
  push_cast
  ring

/-- On an active task, `remaining` after replacing the `timeout` field. -/
theorem remaining_set_timeout (s : TT) (x : Nat) (nowMs nowUs : Nat)
    (h : s.active = true) :
    remaining { s with timeout := x } nowMs nowUs =
      toSigned (subWrap x (if s.microseconds then nowUs else nowMs)) :=
  remaining_active { s with timeout := x } nowMs nowUs h

/-- If after `m` steps of size `interval` the task would no longer be
due, the source's `while (remaining() <= 0) timeout += interval;` loop
terminates within `m + 1` checks, stopping at the *first* step count
`k` whose deadline is strictly in the future. -/
theorem catchUp_succeeds (nowMs nowUs : Nat) :
    ∀ (m : Nat) (s : TT), s.active = true → s.timeout < 2 ^ 32 →
      0 < remaining { s with timeout := addWrap s.timeout ((m : Int) * s.interval) } nowMs nowUs →
      ∃ k, k ≤ m ∧
        catchUp (m + 1) s nowMs nowUs
          = some (addWrap s.timeout ((k : Int) * s.interval)) ∧
        0 < remaining { s with timeout := addWrap s.timeout ((k : Int) * s.interval) } nowMs nowUs ∧
        ∀ j, j < k →
          remaining { s with timeout := addWrap s.timeout ((j : Int) * s.interval) } nowMs nowUs ≤ 0 := by
  intro m
  induction m with
  | zero =>
      intro s hA hT hpos
      rw [Nat.cast_zero, zero_mul, addWrap_zero hT, tt_eta] at hpos
      refine ⟨0, le_refl 0, ?_, ?_, ?_⟩
      · rw [catchUp_succ, if_neg (by omega), Nat.cast_zero, zero_mul, addWrap_zero hT]
      · rw [Nat.cast_zero, zero_mul, addWrap_zero hT, tt_eta]
        exact hpos
      · intro j hj; omega
  | succ n ih =>
      intro s hA hT hpos
      by_cases hdue : remaining s nowMs nowUs ≤ 0
      · have hstep : { s with timeout := addWrap s.timeout s.interval }.timeout
            = addWrap s.timeout s.interval := rfl
        have hpos' : 0 < remaining
            { { s with timeout := addWrap s.timeout s.interval } with
                timeout := addWrap (addWrap s.timeout s.interval)
                  ((n : Int) * s.interval) } nowMs nowUs := by
          rw [addWrap_step]
          exact hpos
        obtain ⟨k, hk, hcu, hkpos, hmin⟩ :=
          ih { s with timeout := addWrap s.timeout s.interval } hA (addWrap_lt _ _) hpos'
        refine ⟨k + 1, by omega, ?_, ?_, ?_⟩
        · rw [catchUp_succ, if_pos hdue, hcu, addWrap_step]
        · have := hkpos
          rw [addWrap_step] at this
          exact this
        · intro j hj
          match j with
          | 0 =>
              rw [Nat.cast_zero, zero_mul, addWrap_zero hT, tt_eta]
              exact hdue
          | Nat.succ j' =>
              have := hmin j' (by omega)
              rw [addWrap_step] at this
              exact this
      · refine ⟨0, Nat.zero_le _, ?_, ?_, ?_⟩
        · rw [catchUp_succ, if_neg hdue, Nat.cast_zero, zero_mul, addWrap_zero hT]
        · rw [Nat.cast_zero, zero_mul, addWrap_zero hT, tt_eta]
          omega
        · intro j hj; omega

/-- Pure arithmetic core of loop termination: starting from any
unsigned difference `d` and stepping by `0 < In < 2^31`, some number of
steps lands the wrapped difference in the strictly-future band
`[1, 2^31)`. -/
theorem nat_exit_exists (d In : Nat) (hd : d < 2 ^ 32) (h1 : 0 < In)
    (h2 : In < 2 ^ 31) :
    ∃ m : Nat, 1 ≤ (d + m * In) % 2 ^ 32 ∧ (d + m * In) % 2 ^ 32 < 2 ^ 31 := by
  obtain ⟨q, r, hqr, hrIn⟩ :
      ∃ q r, In * q + r = 2 ^ 32 - d ∧ r < In :=
    ⟨_, _, Nat.div_add_mod _ _, Nat.mod_lt _ h1⟩
  refine ⟨q + 1, ?_⟩
  have hmul : (q + 1) * In = In * q + In := by ring
  rw [hmul]
  have e32 : (2 : Nat) ^ 32 = 4294967296 := by norm_num
  have e31 : (2 : Nat) ^ 31 = 2147483648 := by norm_num
  simp only [e32, e31] at hqr hd h2 ⊢
  omega

/-- The unsigned difference seen after `m` deadline steps, expressed as
plain natural-number arithmetic. -/
theorem subWrap_addWrap_nat (t now : Nat) (I : Int) (hI : 0 ≤ I) (m : Nat) :
    subWrap (addWrap t ((m : Int) * I)) now
      = (subWrap t now + m * I.toNat) % 2 ^ 32 := by
  rw [subWrap_addWrap, ← wrap32_natCast]
  refine wrap32_eq_of_emod_eq ?_
  have hcast : ((subWrap t now + m * I.toNat : Nat) : Int)
      = ((t : Int) - now) % 2 ^ 32 + (m : Int) * I := by
    push_cast [Int.toNat_of_nonneg hI]
    rw [show ((subWrap t now : Nat) : Int) = ((t : Int) - now) % 2 ^ 32 from wrap32_coe _]
    norm_num
  rw [hcast]
  conv_rhs => rw [Int.add_emod]
  rw [Int.emod_emod_of_dvd _ (dvd_refl _)]
  conv_rhs => rw [← Int.add_emod]
  congr 1
  ring

/-- Some number of deadline steps of size `0 < I < 2^31` puts the
signed view of the deadline strictly in the future. -/
theorem exists_future (t now : Nat) (I : Int) (hIpos : 0 < I)
    (hIlt : I < 2 ^ 31) :
    ∃ m : Nat, 0 < toSigned (subWrap (addWrap t ((m : Int) * I)) now) := by
  have hd : subWrap t now < 2 ^ 32 := subWrap_lt _ _
  have h1 : 0 < I.toNat := by omega
  have h2 : I.toNat < 2 ^ 31 := by
    have eN : (2 : Nat) ^ 31 = 2147483648 := by norm_num
    have eI : (2 : Int) ^ 31 = 2147483648 := by norm_num
    rw [eN]
    rw [eI] at hIlt
    omega
  obtain ⟨m, hm1, hm2⟩ := nat_exit_exists (subWrap t now) I.toNat hd h1 h2
  refine ⟨m, ?_⟩
  rw [subWrap_addWrap_nat t now I hIpos.le m]
  rw [toSigned_pos_iff (Nat.mod_lt _ (by norm_num))]
  exact ⟨hm1, hm2⟩

/-- C4.  For an active periodic task with positive interval (a 32-bit
`long`, hence below `2^31`) that is due or overdue when `loop()` runs,
a single `loop()` call invokes the callback exactly once, keeps the
task active and periodic, and advances the deadline to the smallest
`old_deadline + k*interval` that is strictly in the future: there is
enough fuel for the catch-up loop to finish, the callback flag of the
result is `true`, the new deadline is reached after `k > 0` interval
steps, its remaining time is strictly positive, and every earlier step
count `j < k` would still be due or overdue. -/
theorem c4_periodic_catch_up (s : TT) (nowMs nowUs : Nat)
    (hT : s.timeout < 2 ^ 32) (hA : s.active = true) (hP : s.periodic = true)
    (hIpos : 0 < s.interval) (hIlt : s.interval < 2 ^ 31)
    (hDue : remaining s nowMs nowUs ≤ 0) :
    ∃ fuel st, loopFuel fuel s nowMs nowUs = some (st, true) ∧
      st.active = true ∧ st.periodic = true ∧ st.interval = s.interval ∧
      ∃ k : Nat, 0 < k ∧
        st.timeout = addWrap s.timeout ((k : Int) * s.interval) ∧
        0 < remaining st nowMs nowUs ∧
        ∀ j : Nat, j < k →
          remaining { s with timeout := addWrap s.timeout ((j : Int) * s.interval) }
            nowMs nowUs ≤ 0 := by
  obtain ⟨m, hm⟩ :=
    exists_future s.timeout (if s.microseconds then nowUs else nowMs)
      s.interval hIpos hIlt
  have hpos : 0 < remaining
      { s with timeout := addWrap s.timeout ((m : Int) * s.interval) } nowMs nowUs := by
    rw [remaining_set_timeout s _ nowMs nowUs hA]
    exact hm
  obtain ⟨k, hk, hcu, hkpos, hmin⟩ := catchUp_succeeds nowMs nowUs m s hA hT hpos
  have hk0 : 0 < k := by
    rcases Nat.eq_zero_or_pos k with h0 | h0
    · subst h0
      rw [Nat.cast_zero, zero_mul, addWrap_zero hT, tt_eta] at hkpos
      omega
    · exact h0
  refine ⟨m + 1, { s with timeout := addWrap s.timeout ((k : Int) * s.interval) },
    ?_, hA, hP, rfl, k, hk0, rfl, hkpos, hmin⟩
  unfold loopFuel
  simp only [hA, hP, if_pos hDue, if_true, hcu]

/-- A concrete active periodic task (millisecond mode, interval 10,
deadline 100), used to witness C4 at tick 135. -/
def dueSample : TT :=
  { periodic := true, active := true, microseconds := false,
    pointerParam := 0, interval := 10, timeout := 100,
    taskToCall := some 0, taskToCallTakesPtr := none }

theorem c4_periodic_catch_up_witness :
    dueSample.timeout < 2 ^ 32 ∧ 0 < dueSample.interval ∧
      remaining dueSample 135 135 ≤ 0 ∧
      (∃ fuel st, loopFuel fuel dueSample 135 135 = some (st, true) ∧
        st.active = true ∧ st.periodic = true ∧ st.interval = dueSample.interval ∧
        ∃ k : Nat, 0 < k ∧
          st.timeout = addWrap dueSample.timeout ((k : Int) * dueSample.interval) ∧
          0 < remaining st 135 135 ∧
          ∀ j : Nat, j < k →
            remaining { dueSample with
                timeout := addWrap dueSample.timeout ((j : Int) * dueSample.interval) }
              135 135 ≤ 0) :=
  ⟨by decide, by decide, by decide,
    c4_periodic_catch_up dueSample 135 135 (by decide) rfl rfl (by decide)
      (by decide) (by decide)⟩

/-- With a zero `interval`, each pass of the catch-up loop leaves the
(wrapped) deadline difference unchanged, so the loop never finishes,
whatever the fuel. -/
theorem catchUp_zero_interval (nowMs nowUs : Nat) :
    ∀ (fuel : Nat) (s : TT), s.active = true → s.interval = 0 →
      remaining s nowMs nowUs ≤ 0 → catchUp fuel s nowMs nowUs = none := by
  intro fuel
  induction fuel with
  | zero => intro s _ _ _; rfl
  | succ n ih =>
      intro s hA hI hDue
      rw [catchUp_succ, if_pos hDue]
      refine ih _ hA hI ?_
      have heq : remaining { s with timeout := addWrap s.timeout s.interval } nowMs nowUs
          = remaining s nowMs nowUs := by
        rw [remaining_set_timeout s _ nowMs nowUs hA, remaining_active s nowMs nowUs hA]
        congr 1
        rw [hI]
        unfold addWrap
        rw [add_zero, subWrap_wrap32_left]
        rfl
      rw [heq]
      exact hDue

/-- C10.  `callEvery(0)` is accepted (the guard only rejects negative
intervals) and stores interval 0; at the first `loop()` call at or past
the deadline the internal `while (remaining() <= 0) timeout += interval;`
loop adds 0 to the deadline forever: for every fuel bound the loop has
not finished (`none`), so the callback is never invoked and control
never returns to the host. -/
theorem c10_callEvery_zero_hangs (s0 : TT) (nowMs nowUs nowMs2 nowUs2 : Nat)
    (hDue : remaining (callEvery s0 0 nowMs nowUs).1 nowMs2 nowUs2 ≤ 0)
    (fuel : Nat) :
    (callEvery s0 0 nowMs nowUs).2 = true ∧
    loopFuel fuel (callEvery s0 0 nowMs nowUs).1 nowMs2 nowUs2 = none := by
  have hA : (callEvery s0 0 nowMs nowUs).1.active = true := rfl
  have hP : (callEvery s0 0 nowMs nowUs).1.periodic = true := rfl
  have hI : (callEvery s0 0 nowMs nowUs).1.interval = 0 := rfl
  have hcu := catchUp_zero_interval nowMs2 nowUs2 fuel
    (callEvery s0 0 nowMs nowUs).1 hA hI hDue
  refine ⟨rfl, ?_⟩
  unfold loopFuel
  simp only [hA, hP, if_pos hDue, if_true, hcu]

/-- A freshly constructed task, used as the base state of several
witnesses. -/
def baseSample : TT := mkTinyTask 0 false 0 0 0

theorem c10_callEvery_zero_hangs_witness :
    remaining (callEvery baseSample 0 50 50).1 60 60 ≤ 0 ∧
      ((callEvery baseSample 0 50 50).2 = true ∧
        loopFuel 7 (callEvery baseSample 0 50 50).1 60 60 = none) :=
  ⟨by decide, c10_callEvery_zero_hangs baseSample 50 50 60 60 (by decide) 7⟩

/-- C5.  Concrete one-shot scenario: a task constructed with a plain
callback whose (uninitialised) `interval` member happens to be
non-negative — the precondition for `callIn` to be accepted — with both
clocks at 1000, after `callIn(250)`: the call returns `true`, the
deadline becomes 1250 and the task is an active one-shot; `loop()` at
tick 1249 invokes no callback and changes no state; `loop()` at tick
1250 invokes the callback exactly once with `active` already cleared.
In general (last two conjuncts) every active one-shot task that is due
or overdue is deactivated by `loop()` before its callback is invoked:
the callback-time state returned by `loop()` already has
`active = false`. -/
theorem c5_one_shot_scenario (f : Nat) (periodic0 : Bool) (p0 : Nat) (i0 : Int)
    (t0 : Nat) (h0 : 0 ≤ i0) (fuel fuel2 : Nat) (s : TT) (nowMs nowUs : Nat)
    (hA : s.active = true) (hP : s.periodic = false)
    (hDue : remaining s nowMs nowUs ≤ 0) :
    (callIn (mkTinyTask f periodic0 p0 i0 t0) 250 1000 1000).2 = true ∧
    (callIn (mkTinyTask f periodic0 p0 i0 t0) 250 1000 1000).1.timeout = 1250 ∧
    (callIn (mkTinyTask f periodic0 p0 i0 t0) 250 1000 1000).1.active = true ∧
    (callIn (mkTinyTask f periodic0 p0 i0 t0) 250 1000 1000).1.periodic = false ∧
    loopFuel fuel (callIn (mkTinyTask f periodic0 p0 i0 t0) 250 1000 1000).1 1249 1249
      = some ((callIn (mkTinyTask f periodic0 p0 i0 t0) 250 1000 1000).1, false) ∧
    loopFuel fuel (callIn (mkTinyTask f periodic0 p0 i0 t0) 250 1000 1000).1 1250 1250
      = some ({ (callIn (mkTinyTask f periodic0 p0 i0 t0) 250 1000 1000).1 with
                  active := false }, true) ∧
    loopFuel fuel2 s nowMs nowUs = some ({ s with active := false }, true) ∧
    ({ s with active := false }).active = false := by
  have hneg : ¬ (mkTinyTask f periodic0 p0 i0 t0).interval < 0 := not_lt.mpr h0
  have hcall : callIn (mkTinyTask f periodic0 p0 i0 t0) 250 1000 1000
      = ({ mkTinyTask f periodic0 p0 i0 t0 with
            timeout := 1250, periodic := false, active := true }, true) := by
    unfold callIn
    rw [if_neg hneg, ite_self, show addWrap 1000 250 = 1250 from by decide]
  rw [hcall]
  have hrem1249 : remaining
      ({ mkTinyTask f periodic0 p0 i0 t0 with
          timeout := 1250, periodic := false, active := true }) 1249 1249 = 1 := by
    rw [remaining_active _ 1249 1249 rfl]
    rw [ite_self]
    show toSigned (subWrap 1250 1249) = 1
    decide
  have hrem1250 : remaining
      ({ mkTinyTask f periodic0 p0 i0 t0 with
          timeout := 1250, periodic := false, active := true }) 1250 1250 = 0 := by
    rw [remaining_active _ 1250 1250 rfl]
    rw [ite_self]
    show toSigned (subWrap 1250 1250) = 0
    decide
  refine ⟨rfl, rfl, rfl, rfl, ?_, ?_, ?_, rfl⟩
  · unfold loopFuel
    rw [hrem1249]
    norm_num
  · unfold loopFuel
    rw [hrem1250]
    norm_num
  · unfold loopFuel
    simp only [hA, hP, if_pos hDue, if_true, Bool.false_eq_true, if_false]

/-- A concrete active one-shot task due exactly at tick 100, used to
witness C5's general deactivation conjuncts. -/
def dueOneShot : TT :=
  { periodic := false, active := true, microseconds := false,
    pointerParam := 0, interval := 0, timeout := 100,
    taskToCall := some 0, taskToCallTakesPtr := none }

theorem c5_one_shot_scenario_witness :
    (0 : Int) ≤ 0 ∧ dueOneShot.active = true ∧ dueOneShot.periodic = false ∧
    remaining dueOneShot 100 100 ≤ 0 ∧
    ((callIn (mkTinyTask 0 false 0 0 0) 250 1000 1000).2 = true ∧
      (callIn (mkTinyTask 0 false 0 0 0) 250 1000 1000).1.timeout = 1250 ∧
      (callIn (mkTinyTask 0 false 0 0 0) 250 1000 1000).1.active = true ∧
      (callIn (mkTinyTask 0 false 0 0 0) 250 1000 1000).1.periodic = false ∧
      loopFuel 1 (callIn (mkTinyTask 0 false 0 0 0) 250 1000 1000).1 1249 1249
        = some ((callIn (mkTinyTask 0 false 0 0 0) 250 1000 1000).1, false) ∧
      loopFuel 1 (callIn (mkTinyTask 0 false 0 0 0) 250 1000 1000).1 1250 1250
        = some ({ (callIn (mkTinyTask 0 false 0 0 0) 250 1000 1000).1 with
                    active := false }, true) ∧
      loopFuel 1 dueOneShot 100 100 = some ({ dueOneShot with active := false }, true) ∧
      ({ dueOneShot with active := false }).active = false) :=
  ⟨le_refl 0, rfl, rfl, by decide,
    c5_one_shot_scenario 0 false 0 0 0 (le_refl 0) 1 1 dueOneShot 100 100
      rfl rfl (by decide)⟩
